import Mathlib

/-!
Shallow embedding of `src/lib.rs` of krakotay/flib_rs: a tantivy-backed book
catalog. The Rust code ingests an `.inpx` catalog (a zip of `.inp` text
members, lines split on the 0x04 delimiter), indexes books, and answers
free-text search, exact lookup by id, and partial extraction of `<id>.fb2`
from a per-book zip archive.

Modelling choices (each noted at the definition it concerns):
* machine integers are `Nat` with the `u64` bound checked where the source
  parses (`parseU64`);
* the filesystem is a record of total functions (`FileSys`): tantivy index
  directories, the `.inpx` container, plain-file existence, and per-book
  archive listings/bytes as seen through the partialzip primitive;
* tantivy itself is external: an index is its document list, the
  `TopDocs::with_limit` collector is modelled as sort-descending-then-take,
  a parsed free-text query is an abstract scorer `Doc → Option Score`
  (`none` = non-matching), BM25 `f32` scores are modelled as `ℚ` since only
  their ordering matters to this code;
* `println!` logging and the write side effect of `download_file` carry no
  logic; the latter is modelled as the returned pair (destination path,
  bytes written).
-/

/-- One member of the `.inpx` zip container. The two failure modes of the
source are distinct and modelled separately: `byIndexOk = false` means
`archive.by_index` fails at this member's index — loop 1 (lines 86-98)
then skips the member, but the loop-2 re-query `archive.by_index(i)?`
(lines 134-136) hits the same failure and aborts the whole build;
`contents = none` means `by_index` succeeds but `read_to_string` fails
(lines 102-109) — the member contributes no contents, while its name is
still obtainable by a later re-query. -/
structure ZipMember where
  name : String
  byIndexOk : Bool
  contents : Option String
deriving DecidableEq

/-- The `Book` struct of the source (`id`, `author_name`, `book_title`,
`zip_archive`). `id : Nat` models the Rust `u64`; `parseU64` enforces the
64-bit bound at the only place a `Book` id is created. -/
structure Book where
  id : Nat
  author_name : String
  book_title : String
  zip_archive : String
deriving DecidableEq

/-- A tantivy document of the 4-field schema built by `create_schema`.
Fields are `Option` because tantivy does not force a stored value to be
present (`get_first(..)` returns an `Option` in the source). -/
structure Doc where
  id : Option Nat
  author : Option String
  title : Option String
  zip_archive : Option String
deriving DecidableEq

/-- Error taxonomy of the source, one constructor per distinct error site
(the Rust code returns formatted strings; the constructors keep the data
those strings carry). -/
inductive FlibError where
  | indexOpen : FlibError
  | containerOpen : FlibError
  | noMatch : Nat → FlibError
  | fieldMissing : String → FlibError
  | archiveMissing : String → FlibError
  | entryNotFound : String → String → FlibError
  | byIndexFatal : Nat → FlibError
deriving DecidableEq

/-- The filesystem and external collaborators as one record of total
functions: `indexes` maps an index directory path to its document list
(`none` = no index directory there), `containers` maps a path to the zip
members of the `.inpx` container at that path (`none` = open/zip failure),
`files` is plain-file existence, `entries` lists the entry names inside the
per-book archive at a path (the partialzip `list_names`), and `entryBytes`
gives the decompressed bytes of a named entry. -/
structure FileSys where
  indexes : String → Option (List Doc)
  containers : String → Option (List ZipMember)
  files : String → Bool
  entries : String → List String
  entryBytes : String → String → List Nat

/-- Splitting a char list on a delimiter char, matching Rust
`str::split(char)`: the empty string yields one empty field, `n`
delimiters yield `n + 1` fields. -/
def splitChar (c : Char) : List Char → List (List Char)
  | [] => [[]]
  | x :: xs =>
    let r := splitChar c xs
    if x = c then [] :: r
    else
      match r with
      | [] => [[x]]
      | y :: ys => (x :: y) :: ys

/-- Rust `str::trim_end_matches(char)`: removes every trailing occurrence
of the char. -/
def trimEndChar (c : Char) (s : List Char) : List Char :=
  (s.reverse.dropWhile (fun x => x = c)).reverse

/-- Rust `str::ends_with(str)` as char-sequence suffix. -/
def strEndsWith (s suffix : String) : Bool :=
  suffix.data.isSuffixOf s.data

/-- One step list of Rust `str::trim_end_matches(str)`: repeatedly strip
the suffix while it is present; the fuel argument (instantiated with the
string length) bounds the repetition and is never exhausted since each
strip removes at least one char. -/
def stripSuffixRep (pat : List Char) : Nat → List Char → List Char
  | 0, s => s
  | n + 1, s =>
    if pat ≠ [] ∧ pat.isSuffixOf s then
      stripSuffixRep pat n (s.take (s.length - pat.length))
    else s

/-- Rust `str::trim_end_matches(str)`. -/
def trimEndMatchesStr (s pat : String) : String :=
  String.mk (stripSuffixRep pat.data s.data.length s.data)

/-- Rust `u64::from_str`: optional leading `+`, then one or more ASCII
digits, rejecting the empty string and values not below `2 ^ 64`. -/
def parseU64 (s : String) : Option Nat :=
  let cs :=
    match s.data with
    | '+' :: rest => rest
    | other => other
  if cs = [] then none
  else if cs.all Char.isDigit then
    let n := cs.foldl (fun acc c => acc * 10 + (c.toNat - 48)) 0
    if n < 2 ^ 64 then some n else none
  else none

/-- `line.trim_end_matches('\n').split('\x04')` of the source: the ordered
field list of one catalog line. -/
def splitFields (line : String) : List String :=
  (splitChar (Char.ofNat 4) (trimEndChar '\n' line.data)).map String.mk

/-- Rust `str::lines`: split on `'\n'`, drop a final empty piece produced
by a trailing newline, and strip one trailing `'\r'` from each line. -/
def rustLines (s : String) : List String :=
  let parts := splitChar '\n' s.data
  let parts :=
    match parts.getLast? with
    | some [] => parts.dropLast
    | _ => parts
  parts.map (fun l => String.mk (if l.getLast? = some '\r' then l.dropLast else l))

/-- Rust `Path::join` for the shapes this code produces: empty base keeps
the file name, a base ending in `/` is used as is, otherwise a `/` is
inserted. Joined names here are always relative file names. -/
def pathJoin (dir file : String) : String :=
  if dir.data = [] then file
  else if dir.data.getLast? = some '/' then dir ++ file
  else dir ++ "/" ++ file

/-- The archive path derived in `build_tantivy_index`: member name with
every trailing `.inp` stripped, `.zip` appended, joined under the archives
root directory. -/
def deriveArchivePath (zipDir name : String) : String :=
  pathJoin zipDir (trimEndMatchesStr name ".inp" ++ ".zip")

/-- The non-fatal paths of the per-line body of `build_tantivy_index`
(lines 116-169 of the source), given the member name the loop-2 re-query
returns for this contents entry: require at least 11 fields, parse field 5
as the u64 id, require the member name to end in `.inp`, derive the
archive path and require it to exist; on success produce the `Book`,
otherwise skip the line. The fatal failure of the re-query itself is
modelled by `processLineE`, whose success normal form this function is
(`processLineE_eq`). -/
def processLine (files : String → Bool) (zipDir name line : String) : Option Book :=
  let fields := splitFields line
  if 11 ≤ fields.length then
    match parseU64 (fields.getD 5 "") with
    | none => none
    | some id =>
      if strEndsWith name ".inp" then
        let zipArchivePath := deriveArchivePath zipDir name
        if files zipArchivePath then
          some { id := id,
                 author_name := fields.getD 0 "",
                 book_title := fields.getD 2 "",
                 zip_archive := zipArchivePath }
        else none
      else none
  else none

/-- The first loop of `build_tantivy_index`: collect, in container order,
the contents of every member that `by_index` can fetch, whose name ends in
`.inp`, and whose contents can be read; each failure merely skips the
member here. -/
def collectContents (archive : List ZipMember) : List String :=
  archive.filterMap (fun m =>
    if m.byIndexOk then
      if strEndsWith m.name ".inp" then m.contents else none
    else none)

/-- The member name obtained when the loop-2 re-query
`archive.by_index(i)` succeeds for the contents at position `i` of
`contents_vec`: the name of the member at index `i` of the FULL container
(the processed member only when no earlier member was skipped). The
re-query itself, including its fatal failure, is modelled by
`processLineE`; this abbreviation is its success value
(`memberNameUsed_eq`) and appears in statements and in the success normal
form `buildBooks`. The `""` fallback is unreachable because `contents_vec`
is never longer than the container. -/
def memberNameUsed (archive : List ZipMember) (i : Nat) : String :=
  (archive[i]?).elim "" ZipMember.name

/-- The book list of a build in which no loop-2 re-query fails: for each
collected contents (with its position), process every line with the member
name at that position. This is the success normal form of the fallible
`buildBooksE` (`buildBooksE_eq`), which is what `buildTantivyIndex`
actually runs. -/
def buildBooks (files : String → Bool) (zipDir : String) (archive : List ZipMember) : List Book :=
  (collectContents archive).enum.flatMap
    (fun p => (rustLines p.2).filterMap (processLine files zipDir (memberNameUsed archive p.1)))

/-- The full per-line body of `build_tantivy_index` (lines 116-169),
including the fatal path: after the field-count check and a successful id
parse, the code re-queries `archive.by_index(i)` with `?` (lines 134-136);
if the member at full index `i` cannot be fetched, that error propagates
and aborts the whole build. Lines failing the field-count or parse checks
are skipped before the re-query and can never abort. -/
def processLineE (files : String → Bool) (zipDir : String) (archive : List ZipMember)
    (i : Nat) (line : String) : Except FlibError (Option Book) :=
  let fields := splitFields line
  if 11 ≤ fields.length then
    match parseU64 (fields.getD 5 "") with
    | none => Except.ok none
    | some id =>
      match archive[i]? with
      | none => Except.error (FlibError.byIndexFatal i)
      | some m =>
        if m.byIndexOk then
          if strEndsWith m.name ".inp" then
            if files (deriveArchivePath zipDir m.name) then
              Except.ok (some { id := id,
                                author_name := fields.getD 0 "",
                                book_title := fields.getD 2 "",
                                zip_archive := deriveArchivePath zipDir m.name })
            else Except.ok none
          else Except.ok none
        else Except.error (FlibError.byIndexFatal i)
  else Except.ok none

/-- The inner line loop of `build_tantivy_index` over one collected
contents entry, propagating the fatal re-query error. -/
def processLines (files : String → Bool) (zipDir : String) (archive : List ZipMember)
    (i : Nat) : List String → Except FlibError (List Book)
  | [] => Except.ok []
  | l :: ls =>
    match processLineE files zipDir archive i l with
    | Except.error e => Except.error e
    | Except.ok ob =>
      match processLines files zipDir archive i ls with
      | Except.error e => Except.error e
      | Except.ok bs => Except.ok (ob.toList ++ bs)

/-- The outer member loop of `build_tantivy_index` over the collected
contents with their positions, propagating the fatal re-query error. -/
def buildBooksAux (files : String → Bool) (zipDir : String) (archive : List ZipMember) :
    List (Nat × String) → Except FlibError (List Book)
  | [] => Except.ok []
  | p :: ps =>
    match processLines files zipDir archive p.1 (rustLines p.2) with
    | Except.error e => Except.error e
    | Except.ok bs =>
      match buildBooksAux files zipDir archive ps with
      | Except.error e => Except.error e
      | Except.ok rest => Except.ok (bs ++ rest)

/-- The fallible book accumulation of `build_tantivy_index`: it either
aborts on a loop-2 `by_index` failure or returns all accepted books. -/
def buildBooksE (files : String → Bool) (zipDir : String) (archive : List ZipMember) :
    Except FlibError (List Book) :=
  buildBooksAux files zipDir archive (collectContents archive).enum

/-- Projection of a `Book` onto the 4-field tantivy document, as written by
the indexing loop of `build_tantivy_index` (all four fields present). -/
def bookToDoc (b : Book) : Doc :=
  { id := some b.id,
    author := some b.author_name,
    title := some b.book_title,
    zip_archive := some b.zip_archive }

/-- `open_or_create_index`: if the index path exists open it (its document
list is unchanged), otherwise create the directory with an empty index of
the fixed schema. Returns the opened document list and the (possibly
updated) filesystem. -/
def openOrCreateIndex (fs : FileSys) (p : String) : List Doc × FileSys :=
  match fs.indexes p with
  | some docs => (docs, fs)
  | none =>
    ([], { fs with indexes := fun q => if q = p then some [] else fs.indexes q })

/-- `build_tantivy_index`: open or create the index, open the `.inpx`
container (failure is fatal), run the fallible book accumulation (a loop-2
`by_index` failure aborts with an error before anything is written), then
add one document per book and commit. The commit makes the new documents
visible in the index directory; on any error nothing is committed. -/
def buildTantivyIndex (fs : FileSys) (inpx ip zipDir : String) : Except FlibError FileSys :=
  let pr := openOrCreateIndex fs ip
  match pr.2.containers inpx with
  | none => Except.error FlibError.containerOpen
  | some archive =>
    match buildBooksE pr.2.files zipDir archive with
    | Except.error e => Except.error e
    | Except.ok books =>
      let docs := pr.1 ++ books.map bookToDoc
      Except.ok { pr.2 with indexes := fun q => if q = ip then some docs else pr.2.indexes q }

/-- The index document list stored at `ip` after a run of
`build_tantivy_index`, `none` when the build fails. -/
def indexAfterBuild (fs : FileSys) (inpx ip zipDir : String) : Option (List Doc) :=
  match buildTantivyIndex fs inpx ip zipDir with
  | Except.ok f => f.indexes ip
  | Except.error _ => none

/-- Relevance scores: tantivy's `f32` BM25 values, of which this code only
ever uses the ordering; modelled as rationals. -/
abbrev Score := ℚ

/-- Descending-score order on (score, document address) pairs. -/
def byScoreDesc (a b : Score × Nat) : Prop := b.1 ≤ a.1

instance : DecidableRel byScoreDesc :=
  fun a b => inferInstanceAs (Decidable (b.1 ≤ a.1))

instance : IsTotal (Score × Nat) byScoreDesc :=
  ⟨fun a b => le_total b.1 a.1⟩

instance : IsTrans (Score × Nat) byScoreDesc :=
  ⟨fun _ _ _ h1 h2 => le_trans h2 h1⟩

/-- The scored matches of a query over an index: each document address paired
with its score, for the documents the scorer matches. -/
def scoredDocs (docs : List Doc) (scorer : Doc → Option Score) : List (Score × Nat) :=
  docs.enum.filterMap (fun p => (scorer p.2).map (fun s => (s, p.1)))

/-- The tantivy `TopDocs::with_limit(k)` collector, per its contract: the
matches sorted by descending score, truncated to `k`. -/
def topDocsWithLimit (k : Nat) (l : List (Score × Nat)) : List (Score × Nat) :=
  (List.insertionSort byScoreDesc l).take k

/-- The top-10 selection performed by `search_tantivy`. -/
def selectTop (docs : List Doc) (scorer : Doc → Option Score) : List (Score × Nat) :=
  topDocsWithLimit 10 (scoredDocs docs scorer)

/-- The result-tuple construction of `search_tantivy` (lines 213-232): fetch
the document at the returned address and read its stored fields with
`unwrap_or(0)` / `unwrap_or("")` defaults. The `none` branch of the address
lookup is unreachable (collector addresses are in range). -/
def renderHit (docs : List Doc) (p : Score × Nat) : Nat × String × String × Score :=
  match docs[p.2]? with
  | some d => (d.id.getD 0, (d.author).getD "", (d.title).getD "", p.1)
  | none => (0, "", "", p.1)

/-- `search_tantivy`: open the index read-only (`Index::open_in_dir` —
fails when the index directory is absent), collect the top 10 scored
matches and render each as an (id, author, title, score) tuple. The parsed
free-text query is the abstract `scorer`. -/
def searchTantivy (fs : FileSys) (ip : String) (scorer : Doc → Option Score) :
    Except FlibError (List (Nat × String × String × Score)) :=
  match fs.indexes ip with
  | none => Except.error FlibError.indexOpen
  | some docs => Except.ok ((selectTop docs scorer).map (renderHit docs))

/-- The `TermQuery` on the `id` field with `TopDocs::with_limit(1)` used by
`get_info`, `download_file` and `get_file_bytes`: the first document whose
stored id equals the requested id (all term matches score equally, so the
collector yields the first in internal document order). -/
def firstMatch (docs : List Doc) (id : Nat) : Option Doc :=
  docs.find? (fun d => decide (d.id = some id))

/-- `get_info`: open the index read-only, look up the id, and return the
stored (title, author) pair; a missing document or missing stored field is
an error, never a defaulted success. -/
def getInfo (fs : FileSys) (ip : String) (id : Nat) : Except FlibError (String × String) :=
  match fs.indexes ip with
  | none => Except.error FlibError.indexOpen
  | some docs =>
    match firstMatch docs id with
    | none => Except.error (FlibError.noMatch id)
    | some d =>
      match d.title with
      | none => Except.error (FlibError.fieldMissing "title")
      | some t =>
        match d.author with
        | none => Except.error (FlibError.fieldMissing "author")
        | some a => Except.ok (t, a)

/-- `download_file`: open the index read-only, look up the id, read the
stored archive path, require the archive file to exist, require the entry
`"<id>.fb2"` to be listed inside it, then extract that entry into the file
`./<id>.fb2`. Canonicalization, URL conversion and `PartialZip::new` are
modelled as the success path of the external primitive. The success value
models the side effect: the destination path written and the bytes
delivered there (the Rust function then returns `true`). -/
def downloadFile (fs : FileSys) (ip : String) (id : Nat) :
    Except FlibError (String × List Nat) :=
  match fs.indexes ip with
  | none => Except.error FlibError.indexOpen
  | some docs =>
    match firstMatch docs id with
    | none => Except.error (FlibError.noMatch id)
    | some d =>
      match d.zip_archive with
      | none => Except.error (FlibError.fieldMissing "zip_archive")
      | some zp =>
        let ifn := toString id ++ ".fb2"
        if fs.files zp then
          if ifn ∈ fs.entries zp then
            Except.ok (pathJoin "." (toString id ++ ".fb2"), fs.entryBytes zp ifn)
          else Except.error (FlibError.entryNotFound ifn zp)
        else Except.error (FlibError.archiveMissing zp)

/-- `get_file_bytes`: identical resolution to `download_file`, but the
extracted bytes are accumulated in an in-memory buffer and returned. -/
def getFileBytes (fs : FileSys) (ip : String) (id : Nat) : Except FlibError (List Nat) :=
  match fs.indexes ip with
  | none => Except.error FlibError.indexOpen
  | some docs =>
    match firstMatch docs id with
    | none => Except.error (FlibError.noMatch id)
    | some d =>
      match d.zip_archive with
      | none => Except.error (FlibError.fieldMissing "zip_archive")
      | some zp =>
        let ifn := toString id ++ ".fb2"
        if fs.files zp then
          if ifn ∈ fs.entries zp then
            Except.ok (fs.entryBytes zp ifn)
          else Except.error (FlibError.entryNotFound ifn zp)
        else Except.error (FlibError.archiveMissing zp)

/-- `getById` composed after ingestion, the round-trip of the spec:
run `build_tantivy_index` and perform `get_info` on the resulting index. -/
def getInfoAfterBuild (fs : FileSys) (inpx ip zipDir : String) (id : Nat) :
    Except FlibError (String × String) :=
  match buildTantivyIndex fs inpx ip zipDir with
  | Except.ok f => getInfo f ip id
  | Except.error e => Except.error e

/-! Concrete fixtures used by the witness and counterexample theorems. -/

/-- A well-formed catalog line: 11 fields, author in field 0, title in
field 2, id `5` in field 5 (the end-to-end line of the spec). -/
def lineGood : String := "Doe J.\x04\x04Book One\x04\x04\x045\x04\x04\x04\x04\x04"

/-- A container with a single fetchable, readable catalog member. -/
def archOne : List ZipMember :=
  [{ name := "lib.a.inp", byIndexOk := true, contents := some lineGood }]

/-- The accepted book of the single-member container. -/
def bookOne : Book :=
  { id := 5, author_name := "Doe J.", book_title := "Book One",
    zip_archive := "root/lib.a.zip" }

/-- Filesystem for the single-member container: no index yet, the container
at `cat.inpx`, and the derived archive `root/lib.a.zip` present. -/
def fsOne : FileSys :=
  { indexes := fun _ => none,
    containers := fun p => if p = "cat.inpx" then some archOne else none,
    files := fun p => p == "root/lib.a.zip",
    entries := fun _ => [],
    entryBytes := fun _ _ => [] }

/-- A container whose member 0 fails `by_index` and whose member 1
(`b.inp`) carries the valid line: the filtered contents list has the line
at position 0, so the loop-2 re-query of index 0 refails fatally. -/
def archAbort : List ZipMember :=
  [{ name := "x.inp", byIndexOk := false, contents := none },
   { name := "b.inp", byIndexOk := true, contents := some lineGood }]

/-- Filesystem for the aborting container: both candidate archives
exist. -/
def fsAbort : FileSys :=
  { indexes := fun _ => none,
    containers := fun p => if p = "cat.inpx" then some archAbort else none,
    files := fun p => p == "root/b.zip" || p == "root/x.zip",
    entries := fun _ => [],
    entryBytes := fun _ _ => [] }

/-- A line with fewer than 11 fields. -/
def lineShort : String := "too\x04few"

/-- Contents holding a rejected short line followed by a valid line. -/
def contentsMix : String := lineShort ++ "\n" ++ lineGood

/-- The aborting container with the mixed contents: the short line is
skipped non-fatally, the valid line then triggers the fatal re-query. -/
def archAbortMix : List ZipMember :=
  [{ name := "x.inp", byIndexOk := false, contents := none },
   { name := "b.inp", byIndexOk := true, contents := some contentsMix }]

/-- Filesystem for the mixed aborting container. -/
def fsAbortMix : FileSys :=
  { indexes := fun _ => none,
    containers := fun p => if p = "cat.inpx" then some archAbortMix else none,
    files := fun p => p == "root/b.zip" || p == "root/x.zip",
    entries := fun _ => [],
    entryBytes := fun _ _ => [] }

/-- A container where member 0 (`a.inp`) is fetchable but its contents are
unreadable, and member 1 (`b.inp`) carries the valid line: the filtered
contents list has the line at position 0, so the code pairs it with member
0's name. -/
def archMis : List ZipMember :=
  [{ name := "a.inp", byIndexOk := true, contents := none },
   { name := "b.inp", byIndexOk := true, contents := some lineGood }]

/-- Disk on which both candidate archives exist. -/
def filesMis : String → Bool := fun p => p == "root/a.zip" || p == "root/b.zip"

/-- A stored document with id 7. -/
def docSeven : Doc :=
  { id := some 7, author := some "A", title := some "T", zip_archive := some "z" }

/-- An index holding only the id-7 document. -/
def fsSeven : FileSys :=
  { indexes := fun p => if p = "idx" then some [docSeven] else none,
    containers := fun _ => none,
    files := fun _ => false,
    entries := fun _ => [],
    entryBytes := fun _ _ => [] }

/-- An existing but empty index (for the extraction no-match case). -/
def fsEmptyA : FileSys :=
  { indexes := fun p => if p = "idx" then some [] else none,
    containers := fun _ => none,
    files := fun _ => false,
    entries := fun _ => [],
    entryBytes := fun _ _ => [] }

/-- A fully indexed document for the search fixture. -/
def docHit : Doc :=
  { id := some 5, author := some "Doe", title := some "Book", zip_archive := some "z" }

/-- An index holding the search fixture document. -/
def fsHit : FileSys :=
  { indexes := fun p => if p = "idx" then some [docHit] else none,
    containers := fun _ => none,
    files := fun _ => false,
    entries := fun _ => [],
    entryBytes := fun _ _ => [] }

/-- A scorer that matches every document with score 1. -/
def scorerOne : Doc → Option Score := fun _ => some 1

/-- A scorer that matches nothing. -/
def scorerNone : Doc → Option Score := fun _ => none

/-- A filesystem with no index anywhere. -/
def fsNoIdx : FileSys :=
  { indexes := fun _ => none,
    containers := fun _ => none,
    files := fun _ => false,
    entries := fun _ => [],
    entryBytes := fun _ _ => [] }

/-- An existing but empty index (for the reader-tolerates-empty case). -/
def fsEmptyB : FileSys :=
  { indexes := fun p => if p = "idx" then some [] else none,
    containers := fun _ => none,
    files := fun _ => false,
    entries := fun _ => [],
    entryBytes := fun _ _ => [] }

/-- A document resolving id 5 to the archive `root/b.zip`. -/
def docFive : Doc :=
  { id := some 5, author := some "A", title := some "T", zip_archive := some "root/b.zip" }

/-- Extraction fixture: index at `idx`, archive present with entry
`5.fb2` holding bytes `[1, 2, 3]`. -/
def fsExtrA : FileSys :=
  { indexes := fun p => if p = "idx" then some [docFive] else none,
    containers := fun _ => none,
    files := fun p => p == "root/b.zip",
    entries := fun p => if p = "root/b.zip" then ["5.fb2"] else [],
    entryBytes := fun p n => if p = "root/b.zip" ∧ n = "5.fb2" then [1, 2, 3] else [] }

/-- The same extraction fixture with the index at a different path. -/
def fsExtrB : FileSys :=
  { indexes := fun p => if p = "idx2" then some [docFive] else none,
    containers := fun _ => none,
    files := fun p => p == "root/b.zip",
    entries := fun p => if p = "root/b.zip" then ["5.fb2"] else [],
    entryBytes := fun p n => if p = "root/b.zip" ∧ n = "5.fb2" then [1, 2, 3] else [] }

/-- A stored document with every field absent. -/
def docAllNone : Doc := { id := none, author := none, title := none, zip_archive := none }

/-- An index holding only the all-fields-absent document. -/
def fsAllNone : FileSys :=
  { indexes := fun p => if p = "idx" then some [docAllNone] else none,
    containers := fun _ => none,
    files := fun _ => false,
    entries := fun _ => [],
    entryBytes := fun _ _ => [] }

/-! Helper lemmas. -/

/-- There are never more collected contents than container members. -/
theorem collectContents_length_le (archive : List ZipMember) :
    (collectContents archive).length ≤ archive.length :=
  List.length_filterMap_le _ _

/-- When the re-queried member exists, `memberNameUsed` is its name. -/
theorem memberNameUsed_eq {archive : List ZipMember} {i : Nat} {m : ZipMember}
    (hm : archive[i]? = some m) : memberNameUsed archive i = m.name := by
  simp [memberNameUsed, hm]

/-- When the re-queried member exists and is fetchable, the fallible
per-line body succeeds with exactly the non-fatal per-line result. -/
theorem processLineE_eq {archive : List ZipMember} {i : Nat} {m : ZipMember}
    (files : String → Bool) (zipDir line : String)
    (hm : archive[i]? = some m) (hb : m.byIndexOk = true) :
    processLineE files zipDir archive i line =
      Except.ok (processLine files zipDir m.name line) := by
  unfold processLineE processLine
  by_cases h11 : 11 ≤ (splitFields line).length
  · cases hp : parseU64 ((splitFields line)[5]?.getD "")
    · simp [h11, hp]
    · by_cases hc : strEndsWith m.name ".inp" = true
      · by_cases hf : files (deriveArchivePath zipDir m.name) = true
        · simp [h11, hp, hm, hb, hc, hf]
        · simp [h11, hp, hm, hb, hc, hf]
      · simp [h11, hp, hm, hb, hc]
  · simp [h11]

/-- When the re-queried member exists and is fetchable, the inner line
loop succeeds with exactly the non-fatal per-line results. -/
theorem processLines_eq {archive : List ZipMember} {i : Nat} {m : ZipMember}
    (files : String → Bool) (zipDir : String)
    (hm : archive[i]? = some m) (hb : m.byIndexOk = true) (ls : List String) :
    processLines files zipDir archive i ls =
      Except.ok (ls.filterMap (processLine files zipDir m.name)) := by
  induction ls with
  | nil => rfl
  | cons l ls ih =>
    simp only [processLines]
    rw [processLineE_eq files zipDir l hm hb, ih]
    cases hpl : processLine files zipDir m.name l <;>
      simp [List.filterMap_cons, hpl]

/-- When every position in the worklist re-queries a fetchable member, the
outer member loop succeeds with the flattened non-fatal results. -/
theorem buildBooksAux_eq (files : String → Bool) (zipDir : String)
    (archive : List ZipMember) (ps : List (Nat × String)) :
    (∀ p ∈ ps, ∃ m, archive[p.1]? = some m ∧ m.byIndexOk = true) →
    buildBooksAux files zipDir archive ps =
      Except.ok (ps.flatMap (fun p =>
        (rustLines p.2).filterMap (processLine files zipDir (memberNameUsed archive p.1)))) := by
  induction ps with
  | nil => intro _; rfl
  | cons p ps ih =>
    intro hps
    rcases hps p (List.mem_cons_self p ps) with ⟨m, hm, hb⟩
    simp only [buildBooksAux]
    rw [processLines_eq files zipDir hm hb,
      ih (fun q hq => hps q (List.mem_cons_of_mem p hq))]
    simp [List.flatMap_cons, memberNameUsed_eq hm]

/-- When no container member fails `by_index`, the fallible book
accumulation succeeds and equals the pure normal form `buildBooks`. -/
theorem buildBooksE_eq (files : String → Bool) (zipDir : String)
    (archive : List ZipMember)
    (hok : ∀ m ∈ archive, m.byIndexOk = true) :
    buildBooksE files zipDir archive = Except.ok (buildBooks files zipDir archive) := by
  unfold buildBooksE buildBooks
  apply buildBooksAux_eq
  intro p hp
  have h2 := List.mem_enum_iff_getElem?.mp hp
  have hlt : p.1 < (collectContents archive).length := by
    by_contra h
    rw [List.getElem?_eq_none (by omega)] at h2
    cases h2
  have hlt' : p.1 < archive.length :=
    lt_of_lt_of_le hlt (collectContents_length_le archive)
  exact ⟨archive[p.1], List.getElem?_eq_getElem hlt',
    hok _ (List.getElem_mem hlt')⟩

/-- The score component of a rendered hit is the collector's score. -/
theorem renderHit_score (docs : List Doc) (p : Score × Nat) :
    (renderHit docs p).2.2.2 = p.1 := by
  cases h : docs[p.2]? <;> simp [renderHit, h]

/-- The id term query finds nothing iff no document stores the id. -/
theorem firstMatch_eq_none {docs : List Doc} {id : Nat}
    (h : ∀ d ∈ docs, d.id ≠ some id) : firstMatch docs id = none := by
  apply List.find?_eq_none.mpr
  intro d hd
  simpa using h d hd

/-- Over an index of ingested books containing the id, the id term query
returns the projection of some book of that id. -/
theorem firstMatch_books {books : List Book} {id : Nat}
    (hex : ∃ b ∈ books, b.id = id) :
    ∃ b ∈ books, firstMatch (books.map bookToDoc) id = some (bookToDoc b) ∧ b.id = id := by
  induction books with
  | nil => rcases hex with ⟨b, hb, _⟩; cases hb
  | cons a l ih =>
    by_cases ha : a.id = id
    · refine ⟨a, List.mem_cons_self a l, ?_, ha⟩
      unfold firstMatch
      rw [List.map_cons, List.find?_cons_of_pos]
      simp [bookToDoc, ha]
    · have hex' : ∃ b ∈ l, b.id = id := by
        rcases hex with ⟨b, hb, hbid⟩
        rcases List.mem_cons.mp hb with rfl | hbl
        · exact absurd hbid ha
        · exact ⟨b, hbl, hbid⟩
      rcases ih hex' with ⟨b, hbl, hfm, hbid⟩
      refine ⟨b, List.mem_cons_of_mem _ hbl, ?_, hbid⟩
      unfold firstMatch at hfm ⊢
      rw [List.map_cons, List.find?_cons_of_neg]
      · exact hfm
      · simp [bookToDoc, ha]

/-! Claim theorems. -/

/-- C1 (amended): for every catalog line of a collected member with at
least 11 fields (split on the 0x04 delimiter) whose field 5 parses as an
unsigned 64-bit integer and whose derived archive file (catalog-entry
suffix of the member name the loop-2 re-query returns for this line
stripped, `.zip` appended, joined under the archives root) exists on disk,
provided no container member fails the `by_index` fetch (otherwise the
loop-2 re-query aborts the batch — see the counterexample), ingestion
accepts the line as exactly one book — author from field 0, title from
field 2, id from field 5, archive path the derived path — the whole build
succeeds, and a fresh build writes exactly the projections of the accepted
books to the index, this line's document among them. -/
theorem c1_accepted_line_indexed
    (fs : FileSys) (inpx ip zipDir : String) (archive : List ZipMember)
    (i : Nat) (contents line : String) (id : Nat)
    (hok : ∀ m ∈ archive, m.byIndexOk = true)
    (hfresh : fs.indexes ip = none)
    (hcont : fs.containers inpx = some archive)
    (hcv : (collectContents archive)[i]? = some contents)
    (hline : line ∈ rustLines contents)
    (hlen : 11 ≤ (splitFields line).length)
    (hid : parseU64 ((splitFields line).getD 5 "") = some id)
    (hinp : strEndsWith (memberNameUsed archive i) ".inp" = true)
    (hex : fs.files (deriveArchivePath zipDir (memberNameUsed archive i)) = true) :
    processLineE fs.files zipDir archive i line =
      Except.ok (some { id := id,
                        author_name := (splitFields line).getD 0 "",
                        book_title := (splitFields line).getD 2 "",
                        zip_archive := deriveArchivePath zipDir (memberNameUsed archive i) })
    ∧ buildBooksE fs.files zipDir archive =
        Except.ok (buildBooks fs.files zipDir archive)
    ∧ indexAfterBuild fs inpx ip zipDir =
        some ((buildBooks fs.files zipDir archive).map bookToDoc)
    ∧ ({ id := id,
         author_name := (splitFields line).getD 0 "",
         book_title := (splitFields line).getD 2 "",
         zip_archive := deriveArchivePath zipDir (memberNameUsed archive i) } : Book)
        ∈ buildBooks fs.files zipDir archive := by
  have hlt : i < (collectContents archive).length := by
    by_contra h
    rw [List.getElem?_eq_none (by omega)] at hcv
    cases hcv
  have hlt' : i < archive.length :=
    lt_of_lt_of_le hlt (collectContents_length_le archive)
  have hm : archive[i]? = some archive[i] := List.getElem?_eq_getElem hlt'
  have hbOk : (archive[i]).byIndexOk = true := hok _ (List.getElem_mem hlt')
  have hname : memberNameUsed archive i = (archive[i]).name := memberNameUsed_eq hm
  have hproc : processLine fs.files zipDir (memberNameUsed archive i) line =
      some { id := id,
             author_name := (splitFields line).getD 0 "",
             book_title := (splitFields line).getD 2 "",
             zip_archive := deriveArchivePath zipDir (memberNameUsed archive i) } := by
    have hid' : parseU64 ((splitFields line)[5]?.getD "") = some id := by
      simpa using hid
    simp [processLine, hlen, hid', hinp, hex]
  have hE := buildBooksE_eq fs.files zipDir archive hok
  refine ⟨?_, hE, ?_, ?_⟩
  · rw [processLineE_eq fs.files zipDir line hm hbOk, ← hname, hproc]
  · simp [indexAfterBuild, buildTantivyIndex, openOrCreateIndex, hfresh, hcont, hE]
  · have h1 : (i, contents) ∈ (collectContents archive).enum :=
      List.mk_mem_enum_iff_getElem?.mpr hcv
    exact List.mem_flatMap.mpr
      ⟨(i, contents), h1, List.mem_filterMap.mpr ⟨line, hline, hproc⟩⟩

theorem c1_accepted_line_indexed_wit :
    processLineE fsOne.files "root" archOne 0 lineGood = Except.ok (some bookOne)
    ∧ buildBooksE fsOne.files "root" archOne =
        Except.ok (buildBooks fsOne.files "root" archOne)
    ∧ indexAfterBuild fsOne "cat.inpx" "idx" "root" =
        some ((buildBooks fsOne.files "root" archOne).map bookToDoc)
    ∧ bookOne ∈ buildBooks fsOne.files "root" archOne := by
  have h := c1_accepted_line_indexed fsOne "cat.inpx" "idx" "root" archOne 0
    lineGood lineGood 5 (by decide) rfl rfl (by decide) (by decide) (by decide)
    (by decide) (by decide) (by decide)
  exact h

/-- C1 counterexample: a container whose member 0 fails `by_index` and
whose member 1 (`b.inp`) holds a line meeting every condition of the claim
— at least 11 fields, field 5 parses to 5, and the archive derived from
the member being processed (`root/b.zip`) exists on disk — yet ingestion
writes zero documents: the loop-2 re-query of index 0 refails and the
whole build returns an error. -/
theorem c1_fatal_abort :
    11 ≤ (splitFields lineGood).length
    ∧ parseU64 ((splitFields lineGood).getD 5 "") = some 5
    ∧ fsAbort.files (deriveArchivePath "root" "b.inp") = true
    ∧ collectContents archAbort = [lineGood]
    ∧ buildTantivyIndex fsAbort "cat.inpx" "idx" "root" =
        Except.error (FlibError.byIndexFatal 0)
    ∧ indexAfterBuild fsAbort "cat.inpx" "idx" "root" = none := by
  refine ⟨by decide, by decide, by decide, by decide, rfl, rfl⟩

/-- C2: round-trip — whenever an ingestion actually completes (the
fallible book accumulation returns its book list) over a fresh index, and
the accepted books contain the id (agreeing on its title and author, the
claim's presupposition that the id determines its source line), `get_info`
on the built index returns exactly that (title, author) pair, title being
line field 2 and author line field 0 by `c1_accepted_line_indexed`. When
ingestion instead aborts (see `c3_member_fatal_aborts`), no id is
ingested and the claim is vacuous. -/
theorem c2_get_info_round_trip
    (fs : FileSys) (inpx ip zipDir : String) (archive : List ZipMember)
    (books : List Book) (b : Book)
    (hfresh : fs.indexes ip = none)
    (hcont : fs.containers inpx = some archive)
    (hE : buildBooksE fs.files zipDir archive = Except.ok books)
    (hb : b ∈ books)
    (huni : ∀ b' ∈ books, b'.id = b.id →
        b'.book_title = b.book_title ∧ b'.author_name = b.author_name) :
    getInfoAfterBuild fs inpx ip zipDir b.id = Except.ok (b.book_title, b.author_name) := by
  rcases @firstMatch_books books b.id ⟨b, hb, rfl⟩ with ⟨b', hb', hfm, hbid⟩
  rcases huni b' hb' hbid with ⟨ht, ha⟩
  simp [getInfoAfterBuild, buildTantivyIndex, openOrCreateIndex, hfresh, hcont,
    hE, getInfo, hfm, bookToDoc, ht, ha]

theorem c2_get_info_round_trip_wit :
    getInfoAfterBuild fsOne "cat.inpx" "idx" "root" 5 =
      Except.ok ("Book One", "Doe J.") := by
  have h := c2_get_info_round_trip fsOne "cat.inpx" "idx" "root" archOne
    [bookOne] bookOne rfl rfl rfl (by decide) (by decide)
  exact h

/-- C3 (code evaluation at the failing input): per-line and per-member
failures are NOT always non-fatal. In a container whose member 0 fails
`by_index` and whose member 1 (`b.inp`) holds a short line followed by a
valid line: the short line (fewer than 11 fields) is rejected with zero
documents and without error, processing continues to the next line, but
that line's loop-2 re-query of index 0 refails and — because the source
propagates it with the `?` operator instead of skipping as loop 1 does —
the whole batch aborts with an error and the index receives nothing. -/
theorem c3_member_fatal_aborts :
    rustLines contentsMix = [lineShort, lineGood]
    ∧ (splitFields lineShort).length < 11
    ∧ processLineE fsAbortMix.files "root" archAbortMix 0 lineShort = Except.ok none
    ∧ processLineE fsAbortMix.files "root" archAbortMix 0 lineGood =
        Except.error (FlibError.byIndexFatal 0)
    ∧ buildTantivyIndex fsAbortMix "cat.inpx" "idx" "root" =
        Except.error (FlibError.byIndexFatal 0)
    ∧ indexAfterBuild fsAbortMix "cat.inpx" "idx" "root" = none := by
  refine ⟨by decide, by decide, rfl, rfl, rfl, rfl⟩

/-- C4 (code evaluation at the failing input): in a container whose member
0 (`a.inp`) is fetchable but unreadable (`read_to_string` fails) and whose
member 1 (`b.inp`) holds the valid line, the only processed contents are
those of `b.inp`, yet the accepted book stores `root/a.zip` — the path
derived from `a.inp`, the member at the position of this contents in the
filtered list — and not `root/b.zip`, the path derived from the member
actually being processed; the fallible build commits exactly that book. -/
theorem c4_member_name_misalignment :
    buildBooks filesMis "root" archMis =
      [{ id := 5, author_name := "Doe J.", book_title := "Book One",
         zip_archive := "root/a.zip" }]
    ∧ buildBooksE filesMis "root" archMis =
        Except.ok [{ id := 5, author_name := "Doe J.", book_title := "Book One",
                     zip_archive := "root/a.zip" }]
    ∧ collectContents archMis = [lineGood]
    ∧ deriveArchivePath "root" "b.inp" = "root/b.zip"
    ∧ ("root/a.zip" : String) ≠ "root/b.zip" := by
  refine ⟨by decide, rfl, by decide, by decide, by decide⟩

/-- C5: when no document of the index stores the requested id, the id
point lookup of `get_info` and the lookup step of both extraction variants
return an explicit error (so none of them can return a success carrying
defaulted empty strings). -/
theorem c5_lookup_no_match_errors
    (fs : FileSys) (ip : String) (id : Nat) (docs : List Doc)
    (hopen : fs.indexes ip = some docs)
    (hno : ∀ d ∈ docs, d.id ≠ some id) :
    getInfo fs ip id = Except.error (FlibError.noMatch id)
    ∧ downloadFile fs ip id = Except.error (FlibError.noMatch id)
    ∧ getFileBytes fs ip id = Except.error (FlibError.noMatch id) := by
  have hfm := firstMatch_eq_none hno
  simp [getInfo, downloadFile, getFileBytes, hopen, hfm]

theorem c5_lookup_no_match_errors_wit :
    getInfo fsSeven "idx" 5 = Except.error (FlibError.noMatch 5)
    ∧ downloadFile fsSeven "idx" 5 = Except.error (FlibError.noMatch 5)
    ∧ getFileBytes fsSeven "idx" 5 = Except.error (FlibError.noMatch 5) :=
  c5_lookup_no_match_errors fsSeven "idx" 5 [docSeven] rfl (by decide)

/-- C6: both extraction variants fail with the not-found error when the id
is absent (regardless of the rest of the filesystem), with the distinct
archive-missing error when the resolved archive path does not exist
(regardless of any entry listing — so this check comes first), and with
the distinct entry-not-found error when the archive exists but lacks the
derived entry `<id>.fb2`; each failure is a returned error, never a
crash. -/
theorem c6_extract_error_order
    (fs : FileSys) (ip : String) (id : Nat) (docs : List Doc)
    (hopen : fs.indexes ip = some docs) :
    (firstMatch docs id = none →
      downloadFile fs ip id = Except.error (FlibError.noMatch id)
      ∧ getFileBytes fs ip id = Except.error (FlibError.noMatch id))
    ∧ (∀ d zp, firstMatch docs id = some d → d.zip_archive = some zp →
        fs.files zp = false →
        downloadFile fs ip id = Except.error (FlibError.archiveMissing zp)
        ∧ getFileBytes fs ip id = Except.error (FlibError.archiveMissing zp))
    ∧ (∀ d zp, firstMatch docs id = some d → d.zip_archive = some zp →
        fs.files zp = true →
        (toString id ++ ".fb2") ∉ fs.entries zp →
        downloadFile fs ip id =
          Except.error (FlibError.entryNotFound (toString id ++ ".fb2") zp)
        ∧ getFileBytes fs ip id =
          Except.error (FlibError.entryNotFound (toString id ++ ".fb2") zp)) := by
  refine ⟨?_, ?_, ?_⟩
  · intro hfm
    simp [downloadFile, getFileBytes, hopen, hfm]
  · intro d zp hfm hz hnf
    simp [downloadFile, getFileBytes, hopen, hfm, hz, hnf]
  · intro d zp hfm hz hf hni
    simp [downloadFile, getFileBytes, hopen, hfm, hz, hf, hni]

theorem c6_extract_error_order_wit :
    downloadFile fsEmptyA "idx" 5 = Except.error (FlibError.noMatch 5)
    ∧ getFileBytes fsEmptyA "idx" 5 = Except.error (FlibError.noMatch 5) :=
  (c6_extract_error_order fsEmptyA "idx" 5 [] rfl).1 rfl

/-- C7: whenever the index opens, search returns successfully a list of at
most 10 results, ordered by descending relevance score, and every result
tuple's id is the (defaulted) stored id of a document present in the
index. -/
theorem c7_search_bounds
    (fs : FileSys) (ip : String) (scorer : Doc → Option Score) (docs : List Doc)
    (hopen : fs.indexes ip = some docs) :
    searchTantivy fs ip scorer =
      Except.ok ((selectTop docs scorer).map (renderHit docs))
    ∧ ((selectTop docs scorer).map (renderHit docs)).length ≤ 10
    ∧ List.Pairwise (fun a b => b.2.2.2 ≤ a.2.2.2)
        ((selectTop docs scorer).map (renderHit docs))
    ∧ ∀ x ∈ (selectTop docs scorer).map (renderHit docs),
        ∃ d ∈ docs, x.1 = d.id.getD 0 := by
  refine ⟨by simp [searchTantivy, hopen], ?_, ?_, ?_⟩
  · have h10 : (selectTop docs scorer).length ≤ 10 := by
      unfold selectTop topDocsWithLimit
      exact List.length_take_le 10 _
    simpa [List.length_map] using h10
  · rw [List.pairwise_map]
    have hs : List.Pairwise byScoreDesc (selectTop docs scorer) :=
      List.Pairwise.sublist (List.take_sublist _ _)
        (List.sorted_insertionSort byScoreDesc (scoredDocs docs scorer))
    refine hs.imp ?_
    intro a b hab
    simpa [renderHit_score] using hab
  · intro x hx
    rcases List.mem_map.mp hx with ⟨p, hp, rfl⟩
    have hp2 : p ∈ scoredDocs docs scorer := by
      have h1 : p ∈ List.insertionSort byScoreDesc (scoredDocs docs scorer) :=
        (List.take_sublist _ _).subset hp
      exact (List.perm_insertionSort byScoreDesc (scoredDocs docs scorer)).subset h1
    rcases List.mem_filterMap.mp hp2 with ⟨q, hq, hmap⟩
    rcases Option.map_eq_some'.mp hmap with ⟨s, _, hps⟩
    have hqd : docs[q.1]? = some q.2 := List.mem_enum_iff_getElem?.mp hq
    refine ⟨q.2, List.getElem?_mem hqd, ?_⟩
    rw [← hps]
    simp [renderHit, hqd]

theorem c7_search_bounds_wit :
    searchTantivy fsHit "idx" scorerOne =
      Except.ok ((selectTop [docHit] scorerOne).map (renderHit [docHit]))
    ∧ ((selectTop [docHit] scorerOne).map (renderHit [docHit])).length ≤ 10 := by
  have h := c7_search_bounds fsHit "idx" scorerOne [docHit] rfl
  exact ⟨h.1, h.2.1⟩

/-- C8 counterexample: on a filesystem with no index at `idx`, the reader
open used by search (and by `get_info`) fails, while `open_or_create_index`
— which the claim says the readers go through — would have created the
directory and returned an empty index. -/
theorem c8_reader_open_differs :
    searchTantivy fsNoIdx "idx" scorerNone = Except.error FlibError.indexOpen
    ∧ (openOrCreateIndex fsNoIdx "idx").1 = []
    ∧ ((openOrCreateIndex fsNoIdx "idx").2).indexes "idx" = some []
    ∧ getInfo fsNoIdx "idx" 1 = Except.error FlibError.indexOpen := by
  refine ⟨rfl, rfl, by decide, rfl⟩

/-- C8 amended: only ingestion opens through `open_or_create_index` (an
existing index is opened as is, an absent one is created empty with the
fixed schema); query and extraction open read-only and fail when the index
path is absent; readers do tolerate an existing never-populated index,
returning an empty result set. -/
theorem c8_open_semantics :
    (∀ fs p docs, fs.indexes p = some docs → openOrCreateIndex fs p = (docs, fs))
    ∧ (∀ fs p, fs.indexes p = none → (openOrCreateIndex fs p).1 = []
        ∧ ((openOrCreateIndex fs p).2).indexes p = some [])
    ∧ (∀ fs p scorer, fs.indexes p = some [] →
        searchTantivy fs p scorer = Except.ok [])
    ∧ (∀ fs p scorer, fs.indexes p = none →
        searchTantivy fs p scorer = Except.error FlibError.indexOpen)
    ∧ (∀ fs p id, fs.indexes p = none →
        getInfo fs p id = Except.error FlibError.indexOpen) := by
  refine ⟨?_, ?_, ?_, ?_, ?_⟩
  · intro fs p docs h
    simp [openOrCreateIndex, h]
  · intro fs p h
    simp [openOrCreateIndex, h]
  · intro fs p scorer h
    simp [searchTantivy, h, selectTop, topDocsWithLimit, scoredDocs]
  · intro fs p scorer h
    simp [searchTantivy, h]
  · intro fs p id h
    simp [getInfo, h]

theorem c8_open_semantics_wit :
    searchTantivy fsEmptyB "idx" scorerNone = Except.ok [] :=
  c8_open_semantics.2.2.1 fsEmptyB "idx" scorerNone rfl

/-- C9 counterexample: the streaming variant's destination is the fixed
path `./<id>.fb2` in the current working directory — identical across two
calls that differ in every caller-supplied string — so the destination is
not a caller-supplied sink parameter. -/
theorem c9_fixed_destination :
    downloadFile fsExtrA "idx" 5 = Except.ok ("./5.fb2", [1, 2, 3])
    ∧ downloadFile fsExtrB "idx2" 5 = Except.ok ("./5.fb2", [1, 2, 3])
    ∧ ("./5.fb2" : String) ≠ "idx"
    ∧ ("./5.fb2" : String) ≠ "idx2"
    ∧ ("./5.fb2" : String) ≠ toString (5 : Nat) := by
  refine ⟨rfl, rfl, by decide, by decide, by decide⟩

/-- C9 amended: on the success path the streaming variant delivers exactly
the resolved entry's bytes to the fixed destination `./<id>.fb2` (derived
from the id, not supplied by the caller), and the byte-buffering variant
returns exactly those bytes in memory; no other destination receives
them. -/
theorem c9_extract_destinations
    (fs : FileSys) (ip : String) (id : Nat) (docs : List Doc) (d : Doc) (zp : String)
    (hopen : fs.indexes ip = some docs)
    (hfm : firstMatch docs id = some d)
    (hz : d.zip_archive = some zp)
    (hf : fs.files zp = true)
    (he : (toString id ++ ".fb2") ∈ fs.entries zp) :
    downloadFile fs ip id =
      Except.ok (pathJoin "." (toString id ++ ".fb2"),
        fs.entryBytes zp (toString id ++ ".fb2"))
    ∧ getFileBytes fs ip id =
      Except.ok (fs.entryBytes zp (toString id ++ ".fb2")) := by
  simp [downloadFile, getFileBytes, hopen, hfm, hz, hf, he]

theorem c9_extract_destinations_wit :
    downloadFile fsExtrA "idx" 5 = Except.ok ("./5.fb2", [1, 2, 3])
    ∧ getFileBytes fsExtrA "idx" 5 = Except.ok [1, 2, 3] := by
  have h := c9_extract_destinations fsExtrA "idx" 5 [docFive] docFive "root/b.zip"
    rfl rfl rfl rfl (by decide)
  exact h

/-- C10: once the index opens, search succeeds, and the tuple rendered for
any returned document reads the stored fields with defaults — id 0 and
empty author/title when the stored value is absent — instead of
failing. -/
theorem c10_search_defaults
    (fs : FileSys) (ip : String) (scorer : Doc → Option Score) (docs : List Doc)
    (hopen : fs.indexes ip = some docs) :
    searchTantivy fs ip scorer =
      Except.ok ((selectTop docs scorer).map (renderHit docs))
    ∧ (∀ s j d, docs[j]? = some d →
        renderHit docs (s, j) = (d.id.getD 0, d.author.getD "", d.title.getD "", s))
    ∧ (∀ s j d, docs[j]? = some d → d.id = none → d.author = none → d.title = none →
        renderHit docs (s, j) = (0, "", "", s)) := by
  refine ⟨by simp [searchTantivy, hopen], ?_, ?_⟩
  · intro s j d h
    simp [renderHit, h]
  · intro s j d h h1 h2 h3
    simp [renderHit, h, h1, h2, h3]

theorem c10_search_defaults_wit :
    renderHit [docAllNone] ((1 : Score), 0) = (0, "", "", 1)
    ∧ searchTantivy fsAllNone "idx" scorerOne =
        Except.ok ((selectTop [docAllNone] scorerOne).map (renderHit [docAllNone])) := by
  have h := c10_search_defaults fsAllNone "idx" scorerOne [docAllNone] rfl
  exact ⟨h.2.2 1 0 docAllNone rfl rfl rfl rfl, h.1⟩
